import Mathlib

/-!
Verification of the adversarial-attack core of the `uvadlc_practicals_2024`
repository (`assignment3/part2/adversarial_attack.py`) and of the VAE sampling
helper (`assignment3/part1/utils.py`), against its natural-language
specification.

Shallow embedding conventions:
* a tensor is a flat `List ℚ`; all tensor operations in the source are
  element-wise, so they become `List.map` / `List.zipWith`;
* the attacked model and the autograd engine are opaque in the source
  (forward pass plus `loss.backward()`), so they are embedded as abstract
  functions: `predict` for argmax-of-logits classification, and gradient
  oracles giving the gradient of the relevant loss with respect to the input
  (the spec calls this component the Gradient Oracle);
* `torch.randn_like` noise is passed as an explicit argument;
* Python control flow that can raise (`NameError` from an unbound local) is
  embedded with `Except String`.
-/

namespace AdversarialAttack

/-- Element-wise `torch.Tensor.sign`: `-1` for negative entries, `0` for zero,
`+1` for positive entries. -/
def sign (x : ℚ) : ℚ :=
  if 0 < x then 1 else if x < 0 then -1 else 0

/-- `torch.clamp(x, lo, hi)` on one entry: `min (max x lo) hi`. -/
def clamp (x lo hi : ℚ) : ℚ :=
  min (max x lo) hi

/-- `denormalize(batch, mean, std)` from `adversarial_attack.py`:
`batch * std.view(1,-1,1,1) + mean.view(1,-1,1,1)`.  The broadcast applies one
scalar `std`/`mean` per channel, so per channel the operation is the
element-wise affine map `x * std + mean`; the embedding works with one channel
at a time, hence scalar `mean` and `std` (the source defaults them to the
CIFAR channel statistics). -/
def denormalize (batch : List ℚ) (mean std : ℚ) : List ℚ :=
  batch.map (fun x => x * std + mean)

/-- `fgsm_attack(image, data_grad, epsilon)` from `adversarial_attack.py`:
`perturbed_image = image + epsilon * data_grad.sign()`, element-wise, with no
clamping (the source default for `epsilon` is `0.25`). -/
def fgsm_attack (image data_grad : List ℚ) (epsilon : ℚ) : List ℚ :=
  List.zipWith (fun x g => x + epsilon * sign g) image data_grad

/-- The attack-argument dictionary: the source reads `args[ALPHA]`,
`args[EPSILON]` and `args[NUM_ITER]`. -/
structure AttackArgs where
  alpha : ℚ
  epsilon : ℚ
  num_iter : ℕ

/-- One iteration of the loop body of `pgd_attack`: an FGSM step of size
`alpha` from the current adversarial example, then the projection
`perturbations = torch.clamp(adv_data - orig_data, -epsilon, epsilon)` and
`adv_data = torch.clamp(orig_data + perturbations, 0, 1)`.  `gradFn adv` is
the gradient of `criterion(model(adv), target)` with respect to `adv`
produced by `loss.backward()` (the Gradient Oracle). -/
def pgd_step (gradFn : List ℚ → List ℚ) (alpha epsilon : ℚ)
    (orig_data adv_data : List ℚ) : List ℚ :=
  List.zipWith (fun o p => clamp (o + p) 0 1) orig_data
    (List.zipWith (fun a o => clamp (a - o) (-epsilon) epsilon)
      (fgsm_attack adv_data (gradFn adv_data) alpha) orig_data)

/-- The `for _ in range(num_iter)` loop of `pgd_attack`, iterating
`pgd_step`. -/
def pgd_iter (gradFn : List ℚ → List ℚ) (alpha epsilon : ℚ)
    (orig_data : List ℚ) : ℕ → List ℚ → List ℚ
  | 0, adv_data => adv_data
  | Nat.succ n, adv_data =>
      pgd_iter gradFn alpha epsilon orig_data n (pgd_step gradFn alpha epsilon orig_data adv_data)

/-- `pgd_attack(model, data, target, criterion, args)` from
`adversarial_attack.py`.  `orig_data` and the initial `adv_data` are both
detached clones of `data`; the model, target and criterion enter only through
the gradient oracle `gradFn`, which maps the current adversarial example to
the gradient of `criterion(model(adv), target)` with respect to it. -/
def pgd_attack (gradFn : List ℚ → List ℚ) (data : List ℚ) (args : AttackArgs) : List ℚ :=
  pgd_iter gradFn args.alpha args.epsilon data args.num_iter data

/-- The original loss of `fgsm_loss`: `criterion(model(orig_imgs), labels)`
where `orig_imgs` is a gradient-tracking clone of `inputs`. -/
def orig_loss (model : List ℚ → List ℚ) (criterion : List ℚ → ℕ → ℚ)
    (inputs : List ℚ) (labels : ℕ) : ℚ :=
  criterion (model inputs) labels

/-- The adversarial loss of `fgsm_loss`: the loss of the model on
`fgsm_attack(orig_imgs, orig_imgs.grad, epsilon)`, where `gradFn` is the
gradient oracle for `criterion(model(.), labels)` (the result of
`orig_loss.backward()`). -/
def adv_loss (model : List ℚ → List ℚ) (criterion : List ℚ → ℕ → ℚ)
    (gradFn : List ℚ → List ℚ) (inputs : List ℚ) (labels : ℕ) (epsilon : ℚ) : ℚ :=
  criterion (model (fgsm_attack inputs (gradFn inputs) epsilon)) labels

/-- `fgsm_loss(model, criterion, inputs, labels, defense_args)` from
`adversarial_attack.py` (with `return_preds = False`; the `True` variant
additionally returns the clean argmax predictions, which does not change the
loss value): `combined_loss = (1 - alpha)*adv_loss + alpha*orig_loss`. -/
def fgsm_loss (model : List ℚ → List ℚ) (criterion : List ℚ → ℕ → ℚ)
    (gradFn : List ℚ → List ℚ) (inputs : List ℚ) (labels : ℕ)
    (alpha epsilon : ℚ) : ℚ :=
  (1 - alpha) * adv_loss model criterion gradFn inputs labels epsilon
    + alpha * orig_loss model criterion inputs labels

/-- Modelled from the spec: the selector constant `FGSM` is imported from
`globals.py`, which is not among the provided sources; the spec only needs it
to be a fixed tag distinct from `PGD`, so it is modelled as a string tag. -/
def FGSM : String := "fgsm"

/-- Modelled from the spec: the selector constant `PGD` imported from
`globals.py`, modelled as a string tag distinct from `FGSM`. -/
def PGD : String := "pgd"

/-- The mutable locals of the `test_attack` evaluation loop: the robust
counter `correct`, the capped failure-sample list `adv_examples`, and the
binding state of the Python local `perturbed_data` (which persists across
loop iterations and is unbound before the first attacked example). -/
structure EvalState where
  correct : ℕ
  adv_examples : List (ℕ × ℕ × List ℚ × List ℚ)
  last_perturbed : Option (List ℚ)

/-- The attack dispatch of `test_attack`: the FGSM branch perturbs the
denormalized input with the gradient of `F.nll_loss(model(data), target)`
(oracle `gradNll`); the PGD branch runs `pgd_attack` on the raw input with
the `CrossEntropyLoss` gradient oracle `gradCe`; any other selector leaves
the local `perturbed_data` at its previous binding (the `else` branch only
prints). -/
def attack_dispatch (gradNll gradCe : List ℚ → ℕ → List ℚ)
    (attack_function : String) (attack_args : AttackArgs) (mean std : ℚ)
    (last : Option (List ℚ)) (data : List ℚ) (target : ℕ) : Option (List ℚ) :=
  if attack_function = FGSM then
    some (fgsm_attack (denormalize data mean std) (gradNll data target) attack_args.epsilon)
  else if attack_function = PGD then
    some (pgd_attack (fun x => gradCe x target) data attack_args)
  else
    last

/-- One iteration of the `for data, target in test_loader` loop of
`test_attack`.  `predict` is argmax-of-logits classification
(`output.max(1, keepdim=True)[1]`).  If the clean prediction disagrees with
the target the example is skipped (`continue`).  Otherwise the dispatch runs;
if it leaves `perturbed_data` unbound the subsequent
`model(perturbed_data)` raises a `NameError`.  A robust re-classification
increments `correct`; a successful attack is recorded in `adv_examples`
while that list holds fewer than 5 entries, as the tuple
`(init_pred, final_pred, denormalize(original_data), denormalize(adv_ex))`. -/
def test_attack_step (predict : List ℚ → ℕ) (gradNll gradCe : List ℚ → ℕ → List ℚ)
    (attack_function : String) (attack_args : AttackArgs) (mean std : ℚ)
    (st : EvalState) (data : List ℚ) (target : ℕ) : Except String EvalState :=
  let init_pred := predict data
  if init_pred ≠ target then
    Except.ok st
  else
    match attack_dispatch gradNll gradCe attack_function attack_args mean std
        st.last_perturbed data target with
    | none => Except.error "NameError: perturbed_data"
    | some perturbed_data =>
        let final_pred := predict perturbed_data
        if final_pred = target then
          Except.ok { correct := st.correct + 1, adv_examples := st.adv_examples,
                      last_perturbed := some perturbed_data }
        else if st.adv_examples.length < 5 then
          Except.ok { correct := st.correct,
                      adv_examples := st.adv_examples ++
                        [(init_pred, final_pred, denormalize data mean std,
                          denormalize perturbed_data mean std)],
                      last_perturbed := some perturbed_data }
        else
          Except.ok { correct := st.correct, adv_examples := st.adv_examples,
                      last_perturbed := some perturbed_data }

/-- The full evaluation loop of `test_attack` threading `EvalState` through
the test-loader sequence. -/
def test_attack_run (predict : List ℚ → ℕ) (gradNll gradCe : List ℚ → ℕ → List ℚ)
    (attack_function : String) (attack_args : AttackArgs) (mean std : ℚ) :
    EvalState → List (List ℚ × ℕ) → Except String EvalState
  | st, [] => Except.ok st
  | st, (data, target) :: rest =>
      match test_attack_step predict gradNll gradCe attack_function attack_args mean std
          st data target with
      | Except.error e => Except.error e
      | Except.ok st2 =>
          test_attack_run predict gradNll gradCe attack_function attack_args mean std st2 rest

/-- `test_attack(model, test_loader, attack_function, attack_args)` from
`adversarial_attack.py`: run the loop from the empty summary and return
`final_acc = correct/float(len(test_loader))` together with `adv_examples`
(the loader yields batches of size 1, so `len(test_loader)` is the number of
examples). -/
def test_attack (predict : List ℚ → ℕ) (gradNll gradCe : List ℚ → ℕ → List ℚ)
    (attack_function : String) (attack_args : AttackArgs) (mean std : ℚ)
    (test_loader : List (List ℚ × ℕ)) :
    Except String (ℚ × List (ℕ × ℕ × List ℚ × List ℚ)) :=
  match test_attack_run predict gradNll gradCe attack_function attack_args mean std
      { correct := 0, adv_examples := [], last_perturbed := none } test_loader with
  | Except.error e => Except.error e
  | Except.ok st =>
      Except.ok ((st.correct : ℚ) / (test_loader.length : ℚ), st.adv_examples)

/-- Specification-level description of the perturbed example `test_attack`
produces for a known selector (`FGSM` or `PGD`); used to characterize the
evaluator counters. -/
def perturbFor (gradNll gradCe : List ℚ → ℕ → List ℚ)
    (attack_function : String) (attack_args : AttackArgs) (mean std : ℚ)
    (data : List ℚ) (target : ℕ) : List ℚ :=
  if attack_function = FGSM then
    fgsm_attack (denormalize data mean std) (gradNll data target) attack_args.epsilon
  else
    pgd_attack (fun x => gradCe x target) data attack_args

/-- Specification-level robust count: the number of examples whose clean
prediction matches the label and whose perturbed re-classification still
matches it. -/
def robust_count (predict : List ℚ → ℕ) (gradNll gradCe : List ℚ → ℕ → List ℚ)
    (attack_function : String) (attack_args : AttackArgs) (mean std : ℚ)
    (exs : List (List ℚ × ℕ)) : ℕ :=
  List.countP (fun e => decide (predict e.1 = e.2) &&
    decide (predict (perturbFor gradNll gradCe attack_function attack_args mean std e.1 e.2) = e.2)) exs

/-- Specification-level count of the examples actually attacked: those whose
clean prediction matches the label (the spec excludes the others from the
denominator). -/
def attacked_count (predict : List ℚ → ℕ) (exs : List (List ℚ × ℕ)) : ℕ :=
  List.countP (fun e => decide (predict e.1 = e.2)) exs

/-- A store of allocated tensors, identified by allocation index: the Python
heap as far as `pgd_attack` touches it.  Every tensor-producing torch
operation in `pgd_attack` (`clone`, `+`, `torch.clamp`) allocates a fresh
tensor; `requires_grad_`, `zero_grad`, `backward` and `detach` touch gradient
buffers and flags but never a tensor's values, so they do not appear. -/
structure TensorStore where
  vals : List (List ℚ)

/-- Read the values of the tensor at index `i`. -/
def TensorStore.read (s : TensorStore) (i : ℕ) : List ℚ :=
  s.vals.getD i []

/-- Allocate a fresh tensor holding `t`, returning its index and the grown
store. -/
def TensorStore.alloc (s : TensorStore) (t : List ℚ) : ℕ × TensorStore :=
  (s.vals.length, ⟨s.vals ++ [t]⟩)

/-- The `for` loop of `pgd_attack` acting on the tensor store: each iteration
reads the current adversarial tensor `advId`, allocates the out-of-place FGSM
step result, the clamped perturbation, and the re-clamped adversarial
example, and continues with the fresh index; `orig_data` is only read. -/
def pgd_loop_store (gradFn : List ℚ → List ℚ) (alpha epsilon : ℚ) (origId : ℕ) :
    ℕ → ℕ → TensorStore → ℕ × TensorStore
  | 0, advId, s => (advId, s)
  | Nat.succ n, advId, s =>
      let adv := s.read advId
      let orig := s.read origId
      let raw := s.alloc (fgsm_attack adv (gradFn adv) alpha)
      let pert := raw.2.alloc (List.zipWith (fun a o => clamp (a - o) (-epsilon) epsilon)
        (raw.2.read raw.1) orig)
      let next := pert.2.alloc (List.zipWith (fun o p => clamp (o + p) 0 1) orig
        (pert.2.read pert.1))
      pgd_loop_store gradFn alpha epsilon origId n next.1 next.2

/-- `pgd_attack` on the tensor store: `orig_data = data.clone().detach()` and
`adv_data = data.clone().detach()` allocate fresh copies of the input tensor
at `dataId`, then the loop runs; the returned index holds the final
(detached) adversarial tensor. -/
def pgd_attack_store (gradFn : List ℚ → List ℚ) (alpha epsilon : ℚ) (num_iter : ℕ)
    (dataId : ℕ) (s : TensorStore) : ℕ × TensorStore :=
  let orig := s.alloc (s.read dataId)
  let adv := orig.2.alloc (orig.2.read dataId)
  pgd_loop_store gradFn alpha epsilon orig.1 num_iter adv.1 adv.2

end AdversarialAttack

namespace VaeUtils

/-- `sample_reparameterize(mean, std)` from `assignment3/part1/utils.py`:
asserts that no entry of `std` is strictly negative
(`assert not (std < 0).any()`), then returns `mean + std * epsilon` where
`epsilon = torch.randn_like(mean)` is the Gaussian noise sample, passed here
explicitly.  The failed assertion is embedded as `none`. -/
def sample_reparameterize (mean std noise : List ℚ) : Option (List ℚ) :=
  if std.any (fun x => decide (x < 0)) then
    none
  else
    some (List.zipWith (fun m p => m + p) mean (List.zipWith (fun s e => s * e) std noise))

end VaeUtils

namespace AdversarialAttack

theorem clamp_le_hi (x lo hi : ℚ) : clamp x lo hi ≤ hi :=
  min_le_right _ _

theorem lo_le_clamp (x lo hi : ℚ) (h : lo ≤ hi) : lo ≤ clamp x lo hi :=
  le_min (le_max_right _ _) h

theorem getD_zipWith (f : ℚ → ℚ → ℚ) :
    ∀ (as bs : List ℚ) (i : ℕ), i < as.length → i < bs.length →
      (List.zipWith f as bs).getD i 0 = f (as.getD i 0) (bs.getD i 0)
  | [], _, i, h1, _ => absurd h1 (by simp)
  | _ :: _, [], i, _, h2 => absurd h2 (by simp)
  | _ :: _, _ :: _, 0, _, _ => rfl
  | _ :: as, _ :: bs, i + 1, h1, h2 =>
      getD_zipWith f as bs i (by simp only [List.length_cons] at h1; omega)
        (by simp only [List.length_cons] at h2; omega)

theorem clamp_unit_dev (o p epsilon : ℚ) (h0 : 0 ≤ o) (h1 : o ≤ 1)
    (hp1 : -epsilon ≤ p) (hp2 : p ≤ epsilon) :
    |clamp (o + p) 0 1 - o| ≤ epsilon := by
  have heps : 0 ≤ epsilon := by linarith
  rw [abs_le]
  unfold clamp
  rcases le_total (o + p) 0 with h | h
  · rw [max_eq_right h, min_eq_left (by norm_num : (0:ℚ) ≤ 1)]
    constructor <;> linarith
  · rw [max_eq_left h]
    rcases le_total (o + p) 1 with h2 | h2
    · rw [min_eq_left h2]
      constructor <;> linarith
    · rw [min_eq_right h2]
      constructor <;> linarith

theorem pgd_step_length (gradFn : List ℚ → List ℚ)
    (hg : ∀ xs, (gradFn xs).length = xs.length) (alpha epsilon : ℚ)
    (orig adv : List ℚ) (h : adv.length = orig.length) :
    (pgd_step gradFn alpha epsilon orig adv).length = orig.length := by
  simp [pgd_step, fgsm_attack, List.length_zipWith, hg, h]

theorem pgd_step_dev (gradFn : List ℚ → List ℚ)
    (hg : ∀ xs, (gradFn xs).length = xs.length) (alpha epsilon : ℚ)
    (he : 0 ≤ epsilon) (data adv : List ℚ) (hl : adv.length = data.length)
    (hd : ∀ i, i < data.length → 0 ≤ data.getD i 0 ∧ data.getD i 0 ≤ 1)
    (i : ℕ) (hi : i < data.length) :
    |(pgd_step gradFn alpha epsilon data adv).getD i 0 - data.getD i 0| ≤ epsilon := by
  have hraw : (fgsm_attack adv (gradFn adv) alpha).length = data.length := by
    simp [fgsm_attack, List.length_zipWith, hg, hl]
  have hpert : (List.zipWith (fun a o => clamp (a - o) (-epsilon) epsilon)
      (fgsm_attack adv (gradFn adv) alpha) data).length = data.length := by
    simp [List.length_zipWith, hraw]
  unfold pgd_step
  rw [getD_zipWith _ _ _ i hi (by rw [hpert]; exact hi)]
  rw [getD_zipWith _ _ _ i (by rw [hraw]; exact hi) hi]
  obtain ⟨hd0, hd1⟩ := hd i hi
  exact clamp_unit_dev _ _ _ hd0 hd1
    (lo_le_clamp _ _ _ (by linarith)) (clamp_le_hi _ _ _)

theorem pgd_iter_cases (gradFn : List ℚ → List ℚ)
    (hg : ∀ xs, (gradFn xs).length = xs.length) (alpha epsilon : ℚ) (orig : List ℚ) :
    ∀ (n : ℕ) (adv : List ℚ), adv.length = orig.length →
      pgd_iter gradFn alpha epsilon orig n adv = adv ∨
      ∃ b, b.length = orig.length ∧
        pgd_iter gradFn alpha epsilon orig n adv = pgd_step gradFn alpha epsilon orig b := by
  intro n
  induction n with
  | zero => intro adv _; exact Or.inl rfl
  | succ n ih =>
      intro adv h
      have hlen := pgd_step_length gradFn hg alpha epsilon orig adv h
      rcases ih (pgd_step gradFn alpha epsilon orig adv) hlen with hh | ⟨b, hb, hh⟩
      · refine Or.inr ⟨adv, h, ?_⟩
        simp only [pgd_iter]
        exact hh
      · refine Or.inr ⟨b, hb, ?_⟩
        simp only [pgd_iter]
        exact hh

/-- C2 (amended): for every input tensor whose coordinates all lie in the
valid range `[0, 1]`, every shape-preserving gradient oracle, and every
`num_iter >= 0`, `alpha >= 0`, `epsilon >= 0`, the example returned by
`pgd_attack` deviates from the original input by at most `epsilon` at every
coordinate.  (The range restriction is forced: the final projection clamps
to `[0, 1]`, which moves out-of-range inputs by more than `epsilon`.) -/
theorem pgd_attack_epsilon_bound (gradFn : List ℚ → List ℚ) (data : List ℚ)
    (args : AttackArgs) (hg : ∀ xs, (gradFn xs).length = xs.length)
    (ha : 0 ≤ args.alpha) (he : 0 ≤ args.epsilon)
    (hd : ∀ i, i < data.length → 0 ≤ data.getD i 0 ∧ data.getD i 0 ≤ 1)
    (i : ℕ) (hi : i < data.length) :
    |(pgd_attack gradFn data args).getD i 0 - data.getD i 0| ≤ args.epsilon := by
  unfold pgd_attack
  rcases pgd_iter_cases gradFn hg args.alpha args.epsilon data args.num_iter data rfl with
    h | ⟨b, hb, h⟩
  · rw [h, sub_self, abs_zero]
    exact he
  · rw [h]
    exact pgd_step_dev gradFn hg args.alpha args.epsilon he data b hb hd i hi

theorem pgd_attack_epsilon_bound_witness :
    |(pgd_attack (fun xs => xs) [(1:ℚ)/2] ⟨1, 1/4, 2⟩).getD 0 0
        - ([(1:ℚ)/2] : List ℚ).getD 0 0| ≤ 1/4 :=
  pgd_attack_epsilon_bound (fun xs => xs) [(1:ℚ)/2] ⟨1, 1/4, 2⟩ (fun _ => rfl)
    (by norm_num) (by norm_num)
    (by
      intro i hi
      simp only [List.length_cons, List.length_nil] at hi
      have hz : i = 0 := by omega
      subst hz
      norm_num)
    0 (by simp)

/-- C2 (counterexample): with the original input `[2]` outside the valid
range, a zero gradient oracle, `alpha = 0 >= 0` and `epsilon = 1/10 >= 0`,
one PGD iteration clamps the example to `[1]`, a deviation of `1 > 1/10`
from the original input. -/
theorem pgd_attack_epsilon_counterexample :
    0 ≤ (0:ℚ) ∧ 0 ≤ (1:ℚ)/10 ∧
    ¬ (|(pgd_attack (fun xs => xs.map (fun _ => (0:ℚ))) [2] ⟨0, 1/10, 1⟩).getD 0 0
        - ([(2:ℚ)] : List ℚ).getD 0 0| ≤ 1/10) := by
  refine ⟨le_refl 0, by norm_num, ?_⟩
  have h : pgd_attack (fun xs => xs.map (fun _ => (0:ℚ))) [2] ⟨0, 1/10, 1⟩ = [1] := by
    norm_num [pgd_attack, pgd_iter, pgd_step, fgsm_attack, sign, clamp, min_def, max_def]
  rw [h]
  norm_num [abs_le]

/-- C5: for every input tensor, gradient tensor and step size, `fgsm_attack`
returns exactly `input + step_size * sign(gradient)` at every coordinate,
with `sign` element-wise `-1`, `0` or `+1` according to the gradient entry;
the exact formula means no clamping of the result is performed. -/
theorem fgsm_attack_formula (image data_grad : List ℚ) (epsilon : ℚ)
    (i : ℕ) (h1 : i < image.length) (h2 : i < data_grad.length) :
    (fgsm_attack image data_grad epsilon).getD i 0
        = image.getD i 0 + epsilon * sign (data_grad.getD i 0) ∧
      (0 < data_grad.getD i 0 ∧ sign (data_grad.getD i 0) = 1 ∨
       data_grad.getD i 0 = 0 ∧ sign (data_grad.getD i 0) = 0 ∨
       data_grad.getD i 0 < 0 ∧ sign (data_grad.getD i 0) = -1) := by
  constructor
  · exact getD_zipWith _ image data_grad i h1 h2
  · unfold sign
    split_ifs with hpos hneg
    · exact Or.inl ⟨hpos, rfl⟩
    · exact Or.inr (Or.inr ⟨hneg, rfl⟩)
    · exact Or.inr (Or.inl ⟨by linarith, rfl⟩)

theorem fgsm_attack_formula_witness :
    (fgsm_attack [(1:ℚ), 2] [(3:ℚ), -1] (1/2)).getD 0 0
        = ([(1:ℚ), 2] : List ℚ).getD 0 0
          + (1/2) * sign (([(3:ℚ), -1] : List ℚ).getD 0 0) ∧
      (0 < ([(3:ℚ), -1] : List ℚ).getD 0 0 ∧ sign (([(3:ℚ), -1] : List ℚ).getD 0 0) = 1 ∨
       ([(3:ℚ), -1] : List ℚ).getD 0 0 = 0 ∧ sign (([(3:ℚ), -1] : List ℚ).getD 0 0) = 0 ∨
       ([(3:ℚ), -1] : List ℚ).getD 0 0 < 0 ∧ sign (([(3:ℚ), -1] : List ℚ).getD 0 0) = -1) :=
  fgsm_attack_formula [(1:ℚ), 2] [(3:ℚ), -1] (1/2) 0 (by simp) (by simp)

/-- C6: for every gradient oracle, input tensor and parameters, `pgd_attack`
with `num_iter = 0` returns the original input exactly. -/
theorem pgd_attack_zero_iter (gradFn : List ℚ → List ℚ) (data : List ℚ)
    (alpha epsilon : ℚ) :
    pgd_attack gradFn data ⟨alpha, epsilon, 0⟩ = data := rfl

/-- C7: `fgsm_loss` returns `(1 - alpha) * adversarial_loss + alpha * clean_loss`
(the clean and adversarial losses each coming from their own forward pass);
with `alpha = 1` it equals the clean loss exactly and with `alpha = 0` it
equals the adversarial loss exactly. -/
theorem fgsm_loss_combination (model : List ℚ → List ℚ) (criterion : List ℚ → ℕ → ℚ)
    (gradFn : List ℚ → List ℚ) (inputs : List ℚ) (labels : ℕ) (alpha epsilon : ℚ) :
    fgsm_loss model criterion gradFn inputs labels alpha epsilon
        = (1 - alpha) * adv_loss model criterion gradFn inputs labels epsilon
          + alpha * orig_loss model criterion inputs labels ∧
      fgsm_loss model criterion gradFn inputs labels 1 epsilon
        = orig_loss model criterion inputs labels ∧
      fgsm_loss model criterion gradFn inputs labels 0 epsilon
        = adv_loss model criterion gradFn inputs labels epsilon := by
  refine ⟨rfl, ?_, ?_⟩ <;> unfold fgsm_loss <;> ring

end AdversarialAttack

namespace VaeUtils

/-- C8: `sample_reparameterize` fails its assertion if and only if the
supplied `std` tensor contains a strictly negative entry; otherwise it
returns a sample. -/
theorem sample_reparameterize_neg_std (mean std noise : List ℚ) :
    sample_reparameterize mean std noise = none ↔ ∃ x ∈ std, x < 0 := by
  unfold sample_reparameterize
  by_cases h : std.any (fun x => decide (x < 0)) = true
  · have hex : ∃ x ∈ std, x < 0 := by
      rw [List.any_eq_true] at h
      simpa using h
    simp [h, hex]
  · have hex : ¬ ∃ x ∈ std, x < 0 := by
      rw [List.any_eq_true] at h
      simpa using h
    simp [h, hex]

end VaeUtils

namespace AdversarialAttack

theorem attack_dispatch_known (gradNll gradCe : List ℚ → ℕ → List ℚ)
    (attack_function : String) (attack_args : AttackArgs) (mean std : ℚ)
    (last : Option (List ℚ)) (data : List ℚ) (target : ℕ)
    (h : attack_function = FGSM ∨ attack_function = PGD) :
    attack_dispatch gradNll gradCe attack_function attack_args mean std last data target
      = some (perturbFor gradNll gradCe attack_function attack_args mean std data target) := by
  rcases h with h | h <;> subst h
  · simp [attack_dispatch, perturbFor]
  · unfold attack_dispatch perturbFor
    rw [if_neg (by decide), if_pos rfl, if_neg (by decide)]

theorem test_attack_step_skip (predict : List ℚ → ℕ) (gradNll gradCe : List ℚ → ℕ → List ℚ)
    (attack_function : String) (attack_args : AttackArgs) (mean std : ℚ)
    (st : EvalState) (data : List ℚ) (target : ℕ) (hp : predict data ≠ target) :
    test_attack_step predict gradNll gradCe attack_function attack_args mean std st data target
      = Except.ok st := by
  simp [test_attack_step, hp]

theorem test_attack_step_unbound (predict : List ℚ → ℕ) (gradNll gradCe : List ℚ → ℕ → List ℚ)
    (attack_function : String) (attack_args : AttackArgs) (mean std : ℚ)
    (st : EvalState) (data : List ℚ) (target : ℕ) (hp : predict data = target)
    (hdisp : attack_dispatch gradNll gradCe attack_function attack_args mean std
      st.last_perturbed data target = none) :
    test_attack_step predict gradNll gradCe attack_function attack_args mean std st data target
      = Except.error "NameError: perturbed_data" := by
  simp [test_attack_step, hp, hdisp]

theorem test_attack_step_robust (predict : List ℚ → ℕ) (gradNll gradCe : List ℚ → ℕ → List ℚ)
    (attack_function : String) (attack_args : AttackArgs) (mean std : ℚ)
    (st : EvalState) (data : List ℚ) (target : ℕ) (p : List ℚ) (hp : predict data = target)
    (hdisp : attack_dispatch gradNll gradCe attack_function attack_args mean std
      st.last_perturbed data target = some p)
    (hf : predict p = target) :
    test_attack_step predict gradNll gradCe attack_function attack_args mean std st data target
      = Except.ok ⟨st.correct + 1, st.adv_examples, some p⟩ := by
  simp [test_attack_step, hp, hdisp, hf]

theorem test_attack_step_fail_rec (predict : List ℚ → ℕ) (gradNll gradCe : List ℚ → ℕ → List ℚ)
    (attack_function : String) (attack_args : AttackArgs) (mean std : ℚ)
    (st : EvalState) (data : List ℚ) (target : ℕ) (p : List ℚ) (hp : predict data = target)
    (hdisp : attack_dispatch gradNll gradCe attack_function attack_args mean std
      st.last_perturbed data target = some p)
    (hf : predict p ≠ target) (hcap : st.adv_examples.length < 5) :
    test_attack_step predict gradNll gradCe attack_function attack_args mean std st data target
      = Except.ok ⟨st.correct,
          st.adv_examples ++ [(target, predict p, denormalize data mean std,
            denormalize p mean std)], some p⟩ := by
  simp [test_attack_step, hp, hdisp, hf, hcap]

theorem test_attack_step_fail_full (predict : List ℚ → ℕ) (gradNll gradCe : List ℚ → ℕ → List ℚ)
    (attack_function : String) (attack_args : AttackArgs) (mean std : ℚ)
    (st : EvalState) (data : List ℚ) (target : ℕ) (p : List ℚ) (hp : predict data = target)
    (hdisp : attack_dispatch gradNll gradCe attack_function attack_args mean std
      st.last_perturbed data target = some p)
    (hf : predict p ≠ target) (hcap : ¬ st.adv_examples.length < 5) :
    test_attack_step predict gradNll gradCe attack_function attack_args mean std st data target
      = Except.ok ⟨st.correct, st.adv_examples, some p⟩ := by
  simp [test_attack_step, hp, hdisp, hf, hcap]

end AdversarialAttack

namespace AdversarialAttack

theorem attack_dispatch_unknown (gradNll gradCe : List ℚ → ℕ → List ℚ)
    (attack_function : String) (attack_args : AttackArgs) (mean std : ℚ)
    (last : Option (List ℚ)) (data : List ℚ) (target : ℕ)
    (h1 : attack_function ≠ FGSM) (h2 : attack_function ≠ PGD) :
    attack_dispatch gradNll gradCe attack_function attack_args mean std last data target
      = last := by
  unfold attack_dispatch
  rw [if_neg h1, if_neg h2]

theorem test_attack_step_cap (predict : List ℚ → ℕ) (gradNll gradCe : List ℚ → ℕ → List ℚ)
    (attack_function : String) (attack_args : AttackArgs) (mean std : ℚ)
    (st st1 : EvalState) (data : List ℚ) (target : ℕ)
    (hstep : test_attack_step predict gradNll gradCe attack_function attack_args mean std
      st data target = Except.ok st1)
    (hcap : st.adv_examples.length ≤ 5) : st1.adv_examples.length ≤ 5 := by
  by_cases hp : predict data = target
  · cases hdisp : attack_dispatch gradNll gradCe attack_function attack_args mean std
        st.last_perturbed data target with
    | none =>
        rw [test_attack_step_unbound predict gradNll gradCe attack_function attack_args mean std
          st data target hp hdisp] at hstep
        exact absurd hstep (by simp)
    | some p =>
        by_cases hf : predict p = target
        · rw [test_attack_step_robust predict gradNll gradCe attack_function attack_args mean std
            st data target p hp hdisp hf] at hstep
          obtain rfl : (⟨st.correct + 1, st.adv_examples, some p⟩ : EvalState) = st1 := by
            simpa using hstep
          simpa using hcap
        · by_cases hc5 : st.adv_examples.length < 5
          · rw [test_attack_step_fail_rec predict gradNll gradCe attack_function attack_args mean
              std st data target p hp hdisp hf hc5] at hstep
            obtain rfl : (⟨st.correct, st.adv_examples ++ [(target, predict p,
                denormalize data mean std, denormalize p mean std)], some p⟩ : EvalState) = st1 := by
              simpa using hstep
            simp only [List.length_append, List.length_cons, List.length_nil]
            omega
          · rw [test_attack_step_fail_full predict gradNll gradCe attack_function attack_args mean
              std st data target p hp hdisp hf hc5] at hstep
            obtain rfl : (⟨st.correct, st.adv_examples, some p⟩ : EvalState) = st1 := by
              simpa using hstep
            simpa using hcap
  · rw [test_attack_step_skip predict gradNll gradCe attack_function attack_args mean std
      st data target hp] at hstep
    obtain rfl : st = st1 := by simpa using hstep
    exact hcap

theorem test_attack_run_cap (predict : List ℚ → ℕ) (gradNll gradCe : List ℚ → ℕ → List ℚ)
    (attack_function : String) (attack_args : AttackArgs) (mean std : ℚ) :
    ∀ (exs : List (List ℚ × ℕ)) (st st2 : EvalState),
      test_attack_run predict gradNll gradCe attack_function attack_args mean std st exs
        = Except.ok st2 →
      st.adv_examples.length ≤ 5 → st2.adv_examples.length ≤ 5 := by
  intro exs
  induction exs with
  | nil =>
      intro st st2 hrun hcap
      obtain rfl : st = st2 := by simpa [test_attack_run] using hrun
      exact hcap
  | cons e rest ih =>
      intro st st2 hrun hcap
      obtain ⟨d, t⟩ := e
      rw [test_attack_run] at hrun
      cases hstep : test_attack_step predict gradNll gradCe attack_function attack_args mean std
          st d t with
      | error e =>
          rw [hstep] at hrun
          exact absurd hrun (by simp)
      | ok st1 =>
          rw [hstep] at hrun
          exact ih st1 st2 hrun
            (test_attack_step_cap predict gradNll gradCe attack_function attack_args mean std
              st st1 d t hstep hcap)

end AdversarialAttack

namespace AdversarialAttack

theorem test_attack_run_known (predict : List ℚ → ℕ) (gradNll gradCe : List ℚ → ℕ → List ℚ)
    (attack_function : String) (attack_args : AttackArgs) (mean std : ℚ)
    (h : attack_function = FGSM ∨ attack_function = PGD) :
    ∀ (exs : List (List ℚ × ℕ)) (st : EvalState),
      ∃ st2, test_attack_run predict gradNll gradCe attack_function attack_args mean std st exs
          = Except.ok st2 ∧
        st2.correct = st.correct
          + robust_count predict gradNll gradCe attack_function attack_args mean std exs := by
  intro exs
  induction exs with
  | nil =>
      intro st
      exact ⟨st, rfl, by simp [robust_count]⟩
  | cons e rest ih =>
      intro st
      obtain ⟨d, t⟩ := e
      have hdisp := attack_dispatch_known gradNll gradCe attack_function attack_args mean std
        st.last_perturbed d t h
      by_cases hp : predict d = t
      · by_cases hf :
          predict (perturbFor gradNll gradCe attack_function attack_args mean std d t) = t
        · obtain ⟨st2, hrun, hc⟩ := ih ⟨st.correct + 1, st.adv_examples,
            some (perturbFor gradNll gradCe attack_function attack_args mean std d t)⟩
          refine ⟨st2, ?_, ?_⟩
          · rw [test_attack_run, test_attack_step_robust predict gradNll gradCe attack_function
              attack_args mean std st d t _ hp hdisp hf]
            exact hrun
          · rw [hc]
            simp only [robust_count, List.countP_cons]
            simp only [hp, hf, decide_true_eq_true, Bool.and_self, if_true]
            omega
        · by_cases hc5 : st.adv_examples.length < 5
          · obtain ⟨st2, hrun, hc⟩ := ih ⟨st.correct, st.adv_examples ++ [(t,
              predict (perturbFor gradNll gradCe attack_function attack_args mean std d t),
              denormalize d mean std,
              denormalize (perturbFor gradNll gradCe attack_function attack_args mean std d t)
                mean std)],
              some (perturbFor gradNll gradCe attack_function attack_args mean std d t)⟩
            refine ⟨st2, ?_, ?_⟩
            · rw [test_attack_run, test_attack_step_fail_rec predict gradNll gradCe attack_function
                attack_args mean std st d t _ hp hdisp hf hc5]
              exact hrun
            · rw [hc]
              simp only [robust_count, List.countP_cons]
              simp [hp, hf]
          · obtain ⟨st2, hrun, hc⟩ := ih ⟨st.correct, st.adv_examples,
              some (perturbFor gradNll gradCe attack_function attack_args mean std d t)⟩
            refine ⟨st2, ?_, ?_⟩
            · rw [test_attack_run, test_attack_step_fail_full predict gradNll gradCe
                attack_function attack_args mean std st d t _ hp hdisp hf hc5]
              exact hrun
            · rw [hc]
              simp only [robust_count, List.countP_cons]
              simp [hp, hf]
      · obtain ⟨st2, hrun, hc⟩ := ih st
        refine ⟨st2, ?_, ?_⟩
        · rw [test_attack_run, test_attack_step_skip predict gradNll gradCe attack_function
            attack_args mean std st d t hp]
          exact hrun
        · rw [hc]
          simp only [robust_count, List.countP_cons]
          simp [hp]

theorem test_attack_run_unknown (predict : List ℚ → ℕ) (gradNll gradCe : List ℚ → ℕ → List ℚ)
    (attack_function : String) (attack_args : AttackArgs) (mean std : ℚ)
    (h1 : attack_function ≠ FGSM) (h2 : attack_function ≠ PGD) :
    ∀ (exs : List (List ℚ × ℕ)) (st : EvalState), st.last_perturbed = none →
      (∃ e ∈ exs, predict e.1 = e.2) →
      test_attack_run predict gradNll gradCe attack_function attack_args mean std st exs
        = Except.error "NameError: perturbed_data" := by
  intro exs
  induction exs with
  | nil =>
      intro st _ hex
      simp at hex
  | cons e rest ih =>
      intro st hlast hex
      obtain ⟨d, t⟩ := e
      by_cases hp : predict d = t
      · have hdisp : attack_dispatch gradNll gradCe attack_function attack_args mean std
            st.last_perturbed d t = none := by
          rw [attack_dispatch_unknown gradNll gradCe attack_function attack_args mean std
            st.last_perturbed d t h1 h2, hlast]
        rw [test_attack_run, test_attack_step_unbound predict gradNll gradCe attack_function
          attack_args mean std st d t hp hdisp]
      · have hex' : ∃ e ∈ rest, predict e.1 = e.2 := by
          obtain ⟨e, he, hpe⟩ := hex
          rcases List.mem_cons.mp he with rfl | hrest
          · exact absurd hpe hp
          · exact ⟨e, hrest, hpe⟩
        rw [test_attack_run, test_attack_step_skip predict gradNll gradCe attack_function
          attack_args mean std st d t hp]
        exact ih st hlast hex'

end AdversarialAttack

namespace AdversarialAttack

theorem perturbFor_pgd (gradNll gradCe : List ℚ → ℕ → List ℚ) (attack_args : AttackArgs)
    (mean std : ℚ) (data : List ℚ) (target : ℕ) :
    perturbFor gradNll gradCe PGD attack_args mean std data target
      = pgd_attack (fun x => gradCe x target) data attack_args := by
  unfold perturbFor
  rw [if_neg (by decide)]

theorem robust_count_pgd (predict : List ℚ → ℕ) (gradNll gradCe : List ℚ → ℕ → List ℚ)
    (attack_args : AttackArgs) (m1 s1 m2 s2 : ℚ) (exs : List (List ℚ × ℕ)) :
    robust_count predict gradNll gradCe PGD attack_args m1 s1 exs
      = robust_count predict gradNll gradCe PGD attack_args m2 s2 exs := by
  simp only [robust_count, perturbFor_pgd]

/-- C1 (amended): the final accuracy `test_attack` returns equals the robust
count divided by the total number of examples in the loader: examples whose
clean prediction disagrees with the label are excluded from the numerator
but still counted in the denominator (`correct/float(len(test_loader))`). -/
theorem test_attack_final_accuracy (predict : List ℚ → ℕ)
    (gradNll gradCe : List ℚ → ℕ → List ℚ) (attack_function : String)
    (attack_args : AttackArgs) (mean std : ℚ) (test_loader : List (List ℚ × ℕ))
    (h : attack_function = FGSM ∨ attack_function = PGD) :
    ∃ advs, test_attack predict gradNll gradCe attack_function attack_args mean std test_loader
      = Except.ok (((robust_count predict gradNll gradCe attack_function attack_args mean std
          test_loader : ℕ) : ℚ) / (test_loader.length : ℚ), advs) := by
  obtain ⟨st2, hrun, hc⟩ := test_attack_run_known predict gradNll gradCe attack_function
    attack_args mean std h test_loader ⟨0, [], none⟩
  refine ⟨st2.adv_examples, ?_⟩
  simp only [test_attack, hrun]
  rw [hc]
  norm_num

theorem test_attack_final_accuracy_witness :
    ∃ advs, test_attack (fun _ => 0) (fun _ _ => []) (fun _ _ => []) PGD ⟨0, 0, 0⟩ 0 1
        [([0], 1), ([1], 0)]
      = Except.ok (((robust_count (fun _ => 0) (fun _ _ => []) (fun _ _ => []) PGD ⟨0, 0, 0⟩ 0 1
          [([0], 1), ([1], 0)] : ℕ) : ℚ)
          / (([([(0:ℚ)], 1), ([1], 0)] : List (List ℚ × ℕ)).length : ℚ), advs) :=
  test_attack_final_accuracy (fun _ => 0) (fun _ _ => []) (fun _ _ => []) PGD ⟨0, 0, 0⟩ 0 1
    [([0], 1), ([1], 0)] (Or.inr rfl)

/-- C1 (counterexample): on a two-example loader whose first example is
already misclassified (skipped) and whose second survives the attack, the
code returns accuracy `1/2`, while robust count and attacked count are both
`1`, so the claimed value `robust/attacked = 1/1` differs. -/
theorem test_attack_acc_counterexample :
    test_attack (fun _ => 0) (fun _ _ => []) (fun _ _ => []) PGD ⟨0, 0, 0⟩ 0 1
        [([0], 1), ([1], 0)] = Except.ok (1/2, []) ∧
    robust_count (fun _ => 0) (fun _ _ => []) (fun _ _ => []) PGD ⟨0, 0, 0⟩ 0 1
        [([0], 1), ([1], 0)] = 1 ∧
    attacked_count (fun _ => 0) [([(0:ℚ)], 1), ([1], 0)] = 1 ∧
    ((1:ℚ)/2 ≠ (1:ℚ)/1) := by
  exact ⟨rfl, by decide, by decide, by norm_num⟩

/-- C3 (amended): with a selector that is neither FGSM nor PGD, `test_attack`
prints the unknown selector but does not skip the example: the loop falls
through to re-classifying `perturbed_data`, which is unbound when no earlier
example was attacked, so the whole run aborts with a `NameError` at the first
correctly-classified example. -/
theorem test_attack_unknown_fatal (predict : List ℚ → ℕ)
    (gradNll gradCe : List ℚ → ℕ → List ℚ) (attack_function : String)
    (attack_args : AttackArgs) (mean std : ℚ) (exs : List (List ℚ × ℕ))
    (h1 : attack_function ≠ FGSM) (h2 : attack_function ≠ PGD)
    (hex : ∃ e ∈ exs, predict e.1 = e.2) :
    test_attack predict gradNll gradCe attack_function attack_args mean std exs
      = Except.error "NameError: perturbed_data" := by
  have h := test_attack_run_unknown predict gradNll gradCe attack_function attack_args mean std
    h1 h2 exs ⟨0, [], none⟩ rfl hex
  simp only [test_attack, h]

theorem test_attack_unknown_fatal_witness :
    test_attack (fun _ => 0) (fun _ _ => []) (fun _ _ => []) "gradient" ⟨0, 0, 0⟩ 0 1 [([0], 0)]
      = Except.error "NameError: perturbed_data" :=
  test_attack_unknown_fatal (fun _ => 0) (fun _ _ => []) (fun _ _ => []) "gradient" ⟨0, 0, 0⟩ 0 1
    [([0], 0)] (by decide) (by decide) ⟨([0], 0), by simp, rfl⟩

/-- C3 (counterexample): a loader with a correctly-classified first example
and an unknown selector makes the whole `test_attack` run fail with a
`NameError` instead of skipping that example and completing over the second
one. -/
theorem test_attack_unknown_counterexample :
    test_attack (fun _ => 0) (fun _ _ => []) (fun _ _ => []) "gradient" ⟨0, 0, 0⟩ 0 1
        [([0], 0), ([1], 0)] = Except.error "NameError: perturbed_data" := rfl

/-- C4 (amended): for the PGD selector the denormalization parameters are
reporting-only: the accuracy returned by `test_attack` is identical for any
two `(mean, std)` pairs (only the recorded `adv_examples` differ).  For the
FGSM selector this fails, because the perturbed example that gets
re-classified is built from the denormalized input. -/
theorem test_attack_pgd_denormalize_independent (predict : List ℚ → ℕ)
    (gradNll gradCe : List ℚ → ℕ → List ℚ) (attack_args : AttackArgs)
    (m1 s1 m2 s2 : ℚ) (exs : List (List ℚ × ℕ)) :
    Except.map Prod.fst (test_attack predict gradNll gradCe PGD attack_args m1 s1 exs)
      = Except.map Prod.fst (test_attack predict gradNll gradCe PGD attack_args m2 s2 exs) := by
  obtain ⟨st1, h1, hc1⟩ := test_attack_run_known predict gradNll gradCe PGD attack_args m1 s1
    (Or.inr rfl) exs ⟨0, [], none⟩
  obtain ⟨st2, h2, hc2⟩ := test_attack_run_known predict gradNll gradCe PGD attack_args m2 s2
    (Or.inr rfl) exs ⟨0, [], none⟩
  simp only [test_attack, h1, h2, Except.map]
  rw [hc1, hc2, robust_count_pgd predict gradNll gradCe attack_args m1 s1 m2 s2 exs]

/-- C4 (counterexample): with the FGSM selector and `epsilon = 0`, changing
only the denormalization mean from `0` to `1` changes the perturbed example
that is re-classified, flipping the run's accuracy from `1` to `0`; the
denormalization parameters therefore do affect which predictions are
counted. -/
theorem test_attack_denormalize_counterexample :
    test_attack (fun xs => if xs.getD 0 0 ≤ 0 then 0 else 1) (fun _ _ => [0]) (fun _ _ => [0])
        FGSM ⟨0, 0, 0⟩ 0 1 [([0], 0)] = Except.ok (1, []) ∧
    test_attack (fun xs => if xs.getD 0 0 ≤ 0 then 0 else 1) (fun _ _ => [0]) (fun _ _ => [0])
        FGSM ⟨0, 0, 0⟩ 1 1 [([0], 0)] = Except.ok (0, [(0, 1, [1], [2])]) ∧
    ((1:ℚ), ([] : List (ℕ × ℕ × List ℚ × List ℚ))) ≠ ((0:ℚ), [(0, 1, [1], [2])]) := by
  refine ⟨?_, ?_, by simp⟩
  · norm_num [test_attack, test_attack_run, test_attack_step, attack_dispatch, denormalize,
      fgsm_attack, sign, FGSM, PGD]
  · norm_num [test_attack, test_attack_run, test_attack_step, attack_dispatch, denormalize,
      fgsm_attack, sign, FGSM, PGD]

/-- C9: in every evaluation pass of `test_attack` that returns, the recorded
failure list `adv_examples` holds at most 5 entries (an entry is appended
only while the list length is below the cap). -/
theorem test_attack_adv_examples_cap (predict : List ℚ → ℕ)
    (gradNll gradCe : List ℚ → ℕ → List ℚ) (attack_function : String)
    (attack_args : AttackArgs) (mean std : ℚ) (exs : List (List ℚ × ℕ))
    (acc : ℚ) (advs : List (ℕ × ℕ × List ℚ × List ℚ))
    (h : test_attack predict gradNll gradCe attack_function attack_args mean std exs
      = Except.ok (acc, advs)) :
    advs.length ≤ 5 := by
  unfold test_attack at h
  cases hrun : test_attack_run predict gradNll gradCe attack_function attack_args mean std
      ⟨0, [], none⟩ exs with
  | error e =>
      rw [hrun] at h
      exact absurd h (by simp)
  | ok st =>
      rw [hrun] at h
      simp only [Except.ok.injEq, Prod.mk.injEq] at h
      rw [← h.2]
      exact test_attack_run_cap predict gradNll gradCe attack_function attack_args mean std
        exs ⟨0, [], none⟩ st hrun (by simp)

theorem test_attack_adv_examples_cap_witness :
    ([((0:ℕ), (1:ℕ), ([1] : List ℚ), ([2] : List ℚ))]).length ≤ 5 :=
  test_attack_adv_examples_cap (fun xs => if xs.getD 0 0 ≤ 0 then 0 else 1) (fun _ _ => [0])
    (fun _ _ => [0]) FGSM ⟨0, 0, 0⟩ 1 1 [([0], 0)] 0 [(0, 1, [1], [2])]
    (by norm_num [test_attack, test_attack_run, test_attack_step, attack_dispatch, denormalize,
      fgsm_attack, sign, FGSM, PGD])

end AdversarialAttack

namespace AdversarialAttack

theorem TensorStore.read_alloc (s : TensorStore) (t : List ℚ) (i : ℕ)
    (h : i < s.vals.length) : (s.alloc t).2.read i = s.read i := by
  simp only [TensorStore.alloc, TensorStore.read]
  exact List.getD_append _ _ _ _ h

theorem TensorStore.length_alloc (s : TensorStore) (t : List ℚ) :
    (s.alloc t).2.vals.length = s.vals.length + 1 := by
  simp [TensorStore.alloc]

theorem pgd_loop_store_frame (gradFn : List ℚ → List ℚ) (alpha epsilon : ℚ) (origId : ℕ) :
    ∀ (n advId : ℕ) (s : TensorStore) (i : ℕ), i < s.vals.length →
      (pgd_loop_store gradFn alpha epsilon origId n advId s).2.read i = s.read i ∧
      s.vals.length ≤ (pgd_loop_store gradFn alpha epsilon origId n advId s).2.vals.length := by
  intro n
  induction n with
  | zero =>
      intro advId s i hi
      exact ⟨rfl, le_refl _⟩
  | succ n ih =>
      intro advId s i hi
      simp only [pgd_loop_store]
      set s1 := s.alloc (fgsm_attack (s.read advId) (gradFn (s.read advId)) alpha) with hs1
      set s2 := s1.2.alloc (List.zipWith (fun a o => clamp (a - o) (-epsilon) epsilon)
        (s1.2.read s1.1) (s.read origId)) with hs2
      set s3 := s2.2.alloc (List.zipWith (fun o p => clamp (o + p) 0 1) (s.read origId)
        (s2.2.read s2.1)) with hs3
      have h1 : i < s1.2.vals.length := by
        rw [hs1, TensorStore.length_alloc]; omega
      have h2 : i < s2.2.vals.length := by
        rw [hs2, TensorStore.length_alloc]; omega
      have h3 : i < s3.2.vals.length := by
        rw [hs3, TensorStore.length_alloc]; omega
      obtain ⟨hread, hlen⟩ := ih s3.1 s3.2 i h3
      refine ⟨?_, ?_⟩
      · rw [hread]
        rw [hs3, TensorStore.read_alloc _ _ _ h2, hs2, TensorStore.read_alloc _ _ _ h1,
          hs1, TensorStore.read_alloc _ _ _ hi]
      · have l3 : s3.2.vals.length = s.vals.length + 3 := by
          rw [hs3, TensorStore.length_alloc, hs2, TensorStore.length_alloc,
            hs1, TensorStore.length_alloc]
        omega

/-- C10: `pgd_attack` never mutates the input example: in the tensor-store
semantics, after `pgd_attack_store` runs, the values of the input tensor
`dataId` are exactly what they were before the call (all perturbation happens
on freshly allocated detached copies). -/
theorem pgd_attack_no_mutation (gradFn : List ℚ → List ℚ) (alpha epsilon : ℚ)
    (num_iter : ℕ) (dataId : ℕ) (s : TensorStore) (h : dataId < s.vals.length) :
    (pgd_attack_store gradFn alpha epsilon num_iter dataId s).2.read dataId
      = s.read dataId := by
  simp only [pgd_attack_store]
  set s1 := s.alloc (s.read dataId) with hs1
  set s2 := s1.2.alloc (s1.2.read dataId) with hs2
  have h1 : dataId < s1.2.vals.length := by
    rw [hs1, TensorStore.length_alloc]; omega
  have h2 : dataId < s2.2.vals.length := by
    rw [hs2, TensorStore.length_alloc]; omega
  obtain ⟨hread, _⟩ := pgd_loop_store_frame gradFn alpha epsilon s1.1 num_iter s2.1 s2.2
    dataId h2
  rw [hread, hs2, TensorStore.read_alloc _ _ _ h1, hs1, TensorStore.read_alloc _ _ _ h]

theorem pgd_attack_no_mutation_witness :
    (pgd_attack_store (fun xs => xs) 1 (1/4) 3 0 ⟨[[(1:ℚ)/2]]⟩).2.read 0
      = TensorStore.read ⟨[[(1:ℚ)/2]]⟩ 0 :=
  pgd_attack_no_mutation (fun xs => xs) 1 (1/4) 3 0 ⟨[[(1:ℚ)/2]]⟩ (by simp)

end AdversarialAttack
